import Mathlib

/-!
Verification of the Feedmaster Bluesky achievement bot (`bot.py`).

The bot polls a REST API for achievement events, filters them by rarity
tier, ranks them by rarity percentage, rate-limits posting to Bluesky, and
keeps a monotone cursor of the last processed event id.  The definitions
below are a shallow embedding of the pure decision logic of `bot.py`;
network and filesystem effects are modelled by explicit inputs (fetch
results, page tags, cache contents) and explicit state records.
-/

namespace FeedmasterBot

/-- An achievement event as returned by the Feedmaster API.  Every field is
`Option`-valued: `none` models a key that is absent (or JSON null) from the
dictionary, mirroring the `achievement.get(...)` accesses in `bot.py`. -/
structure Achievement where
  id : Option Int
  user_handle : Option String
  user_display_name : Option String
  achievement_name : Option String
  rarity_tier : Option String
  rarity_percentage : Option ℚ
  user_avatar_url : Option String
  share_url : Option String
deriving DecidableEq, Repr

/-- The `self.rarity_order` dictionary (bot.py lines 79-87) mapping tier
names to ranks; lookup of an unknown key returns `none`. -/
def rarity_order (t : String) : Option Nat :=
  if t = "Bronze" then some 0
  else if t = "Silver" then some 1
  else if t = "Gold" then some 2
  else if t = "Platinum" then some 3
  else if t = "Diamond" then some 4
  else if t = "Legendary" then some 5
  else if t = "Mythic" then some 6
  else none

/-- Python `self.rarity_order.get(tier, 0)` (bot.py lines 170-171): an
unknown tier string defaults to rank 0. -/
def rarityRank (t : String) : Nat := (rarity_order t).getD 0

/-- `should_post_achievement` (bot.py lines 161-173).  A missing or null
`rarity_tier`, or the empty string (both falsy in Python), is skipped;
otherwise the event's rank is compared against the configured minimum. -/
def should_post_achievement (min_rarity_tier : String) (a : Achievement) : Bool :=
  match a.rarity_tier with
  | none => false
  | some t =>
    if t = "" then false
    else decide (rarityRank min_rarity_tier ≤ rarityRank t)

/-- Python `max` over a list of integers: `none` on the empty list, which in
the code raises and is guarded by `if achievements:` (bot.py line 554). -/
def listMax : List Int → Option Int
  | [] => none
  | x :: xs => some (xs.foldl max x)

/-- `achievement.get('id', 0)` (bot.py line 555). -/
def eventId (a : Achievement) : Int := a.id.getD 0

/-- The cursor update at the end of `process_achievements` (bot.py lines
553-558): on a non-empty batch the cursor advances to the largest fetched id
when that id is strictly larger; an empty batch leaves it untouched. -/
def cursor_after (last_processed_id : Int) (achievements : List Achievement) : Int :=
  match listMax (achievements.map eventId) with
  | none => last_processed_id
  | some latest_id =>
    if latest_id > last_processed_id then latest_id else last_processed_id

/-- `get_recent_achievements` (bot.py lines 130-159): any exception while
fetching is caught and yields the empty list, modelled by a `none` result. -/
def fetched_batch (fetch_result : Option (List Achievement)) : List Achievement :=
  fetch_result.getD []

/-- The cursor after a whole run of polling cycles, each cycle fed by one
fetch result. -/
def run_cycles (cursor : Int) (fetches : List (Option (List Achievement))) : Int :=
  fetches.foldl (fun c f => cursor_after c (fetched_batch f)) cursor

/-- Number of binary digits of a natural number, with explicit fuel; the
number itself is always enough fuel. -/
def bitLenAux : ℕ → ℕ → ℕ
  | 0, _ => 0
  | fuel + 1, n => if n ≤ 1 then n else bitLenAux fuel (n / 2) + 1

/-- Bit length of a natural number: 0 for 0, floor(log2 n) + 1 otherwise. -/
def bitLen (n : ℕ) : ℕ := bitLenAux n n

/-- The IEEE-754 binary64 value nearest to the exact ratio num/den
(den nonzero), as an exact mantissa-exponent pair whose value is
mantissa * 2 ^ exponent.  The ratio is scaled by a power of two until its
integer part has 53 bits (the test against 2^52 = 4503599627370496 fixes
the scaling), then rounded to an integer mantissa, half to even.  The
exponent is unbounded: every value the bot computes is far from binary64
overflow and subnormal range, where the two formats agree. -/
def roundRatio (num den : ℤ) : ℤ × ℤ :=
  if num = 0 then (0, 0)
  else
    let s : ℤ := if (0 ≤ num) = (0 ≤ den) then 1 else -1
    let n := num.natAbs
    let d := den.natAbs
    let t0 : ℤ := 52 - ((bitLen n : ℤ) - (bitLen d : ℤ))
    let t : ℤ :=
      if n * 2 ^ t0.toNat < 4503599627370496 * (d * 2 ^ (-t0).toNat)
      then t0 + 1 else t0
    let nn := n * 2 ^ t.toNat
    let dd := d * 2 ^ (-t).toNat
    let m0 := nn / dd
    let r := nn % dd
    let m : ℕ :=
      if dd < 2 * r then m0 + 1
      else if 2 * r < dd then m0
      else if m0 % 2 = 0 then m0 else m0 + 1
    (s * (m : ℤ), -t)

/-- Binary64 division of two mantissa-exponent values, correctly rounded:
Python's true division `/`. -/
def fdiv (a b : ℤ × ℤ) : ℤ × ℤ :=
  let e := a.2 - b.2
  roundRatio (a.1 * ((2 ^ e.toNat : ℕ) : ℤ)) (b.1 * ((2 ^ (-e).toNat : ℕ) : ℤ))

/-- Python `int(...)` of a binary64 value: truncation toward zero. -/
def pyInt (a : ℤ × ℤ) : ℤ :=
  if 0 ≤ a.2 then a.1 * ((2 ^ a.2.toNat : ℕ) : ℤ)
  else a.1.tdiv ((2 ^ (-a.2).toNat : ℕ) : ℤ)

/-- The startup computation of `self.max_posts_per_interval` (bot.py lines
52-54): `polls_per_hour = 60 / poll_interval_minutes` and
`max(1, int(max_posts_per_hour / polls_per_hour))`, with both true
divisions carried out in binary64 floating point as Python performs them
(int/int and int/float division yield the correctly rounded binary64
quotient of the exact operand values; max_posts_per_hour ≤ 60 converts to
binary64 exactly, represented here as the pair (mph, 0)). -/
def max_posts_per_interval (poll_interval_minutes max_posts_per_hour : ℕ) : ℤ :=
  let polls_per_hour := roundRatio 60 (poll_interval_minutes : ℤ)
  max 1 (pyInt (fdiv ((max_posts_per_hour : ℤ), 0) polls_per_hour))

/-- Python fixed-point formatting `"{:.2f}".format(q)` of an exact rational:
round half to even at two decimal places. -/
def format2f (q : ℚ) : String :=
  let sign := if q < 0 then "-" else ""
  let scaled : ℚ := |q| * 100
  let fl : ℤ := ⌊scaled⌋
  let frac : ℚ := scaled - fl
  let cents : ℤ :=
    if frac > 1/2 then fl + 1
    else if frac < 1/2 then fl
    else if fl % 2 = 0 then fl else fl + 1
  sign ++ toString (cents / 100) ++ "." ++
    (if cents % 100 < 10 then "0" else "") ++ toString (cents % 100)

/-- The string substituted for the percentage placeholder by
`format_message`: `achievement.get('rarity_percentage', 0)` rendered with
two decimals (bot.py lines 183 and 191). -/
def percentage_string (a : Achievement) : String :=
  format2f (a.rarity_percentage.getD 0)

/-- The sort key of the publish ranking (bot.py line 534):
`x.get('rarity_percentage', 100)`, missing percentage least rare. -/
def sortKey (a : Achievement) : ℚ := a.rarity_percentage.getD 100

/-- `format_message` (bot.py lines 175-195) instantiated at the default
MESSAGE_TEMPLATE: returns the post text and the optional share url. -/
def format_message (a : Achievement) : String × Option String :=
  let username := a.user_handle.getD "unknown"
  let display_name :=
    match a.user_display_name with
    | none => username
    | some d => if d = "" then username else if d.trim = "" then username else d
  let achievement_name := a.achievement_name.getD "Unknown Achievement"
  let rarity_tier := a.rarity_tier.getD "Bronze"
  let message :=
    "🎉 Congratulations " ++ display_name ++ " on earning \"" ++ achievement_name ++
      "\"! Only " ++ percentage_string a ++ "% of users have achieved this " ++
      rarity_tier ++ " rarity!"
  (message, a.share_url)

/-- The rate-limiting state of the bot (bot.py lines 71-72):
`posts_this_hour` and the absolute window reset time, in seconds. -/
structure RateState where
  posts_this_hour : ℕ
  hour_reset_time : ℤ
deriving DecidableEq, Repr

/-- `post_to_bluesky` (bot.py lines 453-521) projected onto its rate-limit
behaviour.  `now` is the wall clock at the attempt; `send_ok` says whether
building and sending the post succeeds — `false` models an exception (auth,
network, rejected post), which the function catches at lines 519-521 and
turns into a `false` return.  The window check runs first: at or past
`hour_reset_time` the counter resets to 0 and the window is re-armed one
hour past `now`; a full counter then refuses the attempt before any send;
a successful send increments the counter. -/
def post_to_bluesky (max_posts_per_hour : ℕ) (now : ℤ) (send_ok : Bool)
    (s : RateState) : Bool × RateState :=
  let s1 := if s.hour_reset_time ≤ now then RateState.mk 0 (now + 3600) else s
  if max_posts_per_hour ≤ s1.posts_this_hour then (false, s1)
  else if send_ok then (true, RateState.mk (s1.posts_this_hour + 1) s1.hour_reset_time)
  else (false, s1)

/-- The rate state reached after a sequence of publish attempts, each given
by its clock time and send outcome. -/
def run_posts (max_posts_per_hour : ℕ) (attempts : List (ℤ × Bool))
    (s : RateState) : RateState :=
  attempts.foldl (fun st a => (post_to_bluesky max_posts_per_hour a.1 a.2 st).2) s

/-- The per-cycle posting loop of `process_achievements` (bot.py lines
539-551): each event of the truncated batch is posted in turn; a `true`
result continues the loop, a `false` result breaks it.  Events are paired
with their send outcome; the result is the list of events actually
attempted, the number posted, and the final rate state. -/
def posting_loop (max_posts_per_hour : ℕ) (now : ℤ) :
    List (Achievement × Bool) → RateState → List Achievement × ℕ × RateState
  | [], s => ([], 0, s)
  | (a, ok) :: rest, s =>
    let r := post_to_bluesky max_posts_per_hour now ok s
    if r.1 then
      let rr := posting_loop max_posts_per_hour now rest r.2
      (a :: rr.1, rr.2.1 + 1, rr.2.2)
    else ([a], 0, r.2)

/-- Python truthiness of an optional string: None and the empty string are
falsy, every other string truthy. -/
def pyTruthy : Option String → Bool
  | none => false
  | some s => decide (s ≠ "")

/-- The comparison realising the stable ascending sort at bot.py line 534:
`eligible_achievements.sort(key=lambda x: x.get('rarity_percentage', 100))`.
Python's list.sort is a stable sort by a total key order, and a stable
sort's output is unique, so merge sort with this comparison computes it. -/
def publishLe (x y : Achievement) : Bool := decide (sortKey x ≤ sortKey y)

/-- The publish ranking applied to the eligible events of a cycle. -/
def rank_for_publish (l : List Achievement) : List Achievement :=
  l.mergeSort publishLe

/-- The tag data BeautifulSoup extracts from a successfully fetched page:
each field is `some c` when the tag is present with content (or text) `c`,
and `none` when the tag is absent; bot.py lines 216-245 test presence and
content truthiness before using a tag. -/
structure PageTags where
  og_title : Option String
  og_description : Option String
  og_image : Option String
  title_tag : Option String
  desc_tag : Option String
deriving DecidableEq, Repr

/-- The link-card fields assembled by `fetch_url_metadata`; the uploaded
image blob is reduced to its presence. -/
structure LinkCard where
  title : String
  description : String
  has_image : Bool
deriving DecidableEq, Repr

/-- Python string slicing `s[:n]`: the first n characters (code points). -/
def pySlice (s : String) (n : ℕ) : String := String.mk (s.data.take n)

/-- Keep a tag's content only when Python finds it truthy (non-empty). -/
def truthyTag : Option String → Option String
  | none => none
  | some c => if c = "" then none else some c

/-- The metadata extraction of `fetch_url_metadata` on a loaded page
(bot.py lines 216-290): Open Graph tags first, each stripped, then the
plain title / description tags, then the fixed defaults; title and
description are truncated to 300 characters. -/
def extract_metadata (p : PageTags) : LinkCard :=
  let title0 := (truthyTag p.og_title).map String.trim
  let desc0 := (truthyTag p.og_description).map String.trim
  let image0 := (truthyTag p.og_image).map String.trim
  let title1 := if pyTruthy title0 then title0 else (truthyTag p.title_tag).map String.trim
  let desc1 := if pyTruthy desc0 then desc0 else (truthyTag p.desc_tag).map String.trim
  let title2 := if pyTruthy title1 then title1 else some "Achievement Unlocked"
  let desc2 := if pyTruthy desc1 then desc1 else some "View this achievement on Feedmaster"
  { title := pySlice (title2.getD "") 300,
    description := pySlice (desc2.getD "") 300,
    has_image := pyTruthy image0 }

/-- `fetch_url_metadata` (bot.py lines 197-299): after up to three retry
attempts, a successfully loaded page yields its extracted card, and total
failure yields None. -/
def fetch_url_metadata (page : Option PageTags) : Option LinkCard :=
  page.map extract_metadata

/-- The `user_name` computed at bot.py line 343:
`achievement.get('user_display_name') or achievement.get('user_handle', 'Unknown')`. -/
def card_user_name (a : Achievement) : String :=
  match a.user_display_name with
  | some d => if d = "" then a.user_handle.getD "Unknown" else d
  | none => a.user_handle.getD "Unknown"

/-- The triple of inputs determining the card cache key (bot.py 343-349). -/
def card_inputs (a : Achievement) : String × String × String :=
  (a.user_avatar_url.getD "", a.achievement_name.getD "Unknown Achievement",
    card_user_name a)

/-- The string hashed to form the cache key (bot.py line 349), an f-string
joining avatar url, achievement name, user name and the render version tag.
The code takes the md5 hex digest of this string; the model identifies the
key with the hashed content, distinct contents standing for distinct
digests. -/
def cache_key_content (user_avatar_url achievement_name user_name : String) : String :=
  user_avatar_url ++ ":" ++ achievement_name ++ ":" ++ user_name ++ ":v16_PERFECT"

/-- The cache file path of an event's card (bot.py lines 349-351). -/
def card_cache_path (a : Achievement) : String :=
  "/tmp/achievement_cards/" ++
    cache_key_content (card_inputs a).1 (card_inputs a).2.1 (card_inputs a).2.2 ++ ".png"

/-- `generate_achievement_card` (bot.py lines 340-451) projected onto its
caching behaviour.  `cache` is the set of files in the cache directory; the
Bool records whether drawing work was performed: an existing path is a
cache hit returned as is (lines 354-355, no drawing), a miss renders the
card and saves it (line 444). -/
def generate_achievement_card (cache : List String) (a : Achievement) :
    String × Bool × List String :=
  let p := card_cache_path a
  if p ∈ cache then (p, false, cache)
  else (p, true, p :: cache)

end FeedmasterBot

namespace FeedmasterBot

/-- C5: eligibility is exactly rarity-tier presence (non-null, non-empty)
together with rank at least the configured minimum, where unknown tier
strings rank 0 (= the rank of Bronze); events with absent tier are never
eligible. -/
theorem should_post_achievement_spec :
    (∀ min_tier a, should_post_achievement min_tier a = true ↔
      ∃ t, a.rarity_tier = some t ∧ t ≠ "" ∧ rarityRank min_tier ≤ rarityRank t)
    ∧ (∀ t, rarity_order t = none → rarityRank t = 0)
    ∧ rarityRank "Bronze" = 0
    ∧ (∀ min_tier a, a.rarity_tier = none → should_post_achievement min_tier a = false) := by
  refine ⟨?_, ?_, by decide, ?_⟩
  · intro min_tier a
    unfold should_post_achievement
    cases h : a.rarity_tier with
    | none =>
      simp
    | some t =>
      by_cases ht : t = "" <;> simp [ht]
  · intro t h
    unfold rarityRank
    rw [h]
    rfl
  · intro min_tier a h
    unfold should_post_achievement
    rw [h]

/-- Concrete instantiation of the hypotheses of the eligibility theorem. -/
theorem should_post_achievement_spec_witness :
    rarityRank "Copper" = 0
    ∧ should_post_achievement "Gold"
        ⟨none, none, none, none, none, none, none, none⟩ = false :=
  ⟨should_post_achievement_spec.2.1 "Copper" rfl,
   should_post_achievement_spec.2.2.2 "Gold"
     ⟨none, none, none, none, none, none, none, none⟩ rfl⟩

/-- Helper: one cycle never moves the cursor backwards. -/
theorem le_cursor_after (cursor : Int) (batch : List Achievement) :
    cursor ≤ cursor_after cursor batch := by
  unfold cursor_after
  cases listMax (batch.map eventId) with
  | none => exact le_refl _
  | some m =>
    dsimp only
    split <;> omega

/-- C1: on a non-empty batch (one whose id list has a Python `max`) the
cursor after the cycle equals max(cursor before, largest fetched id); a
single cycle never lowers the cursor, nor does any sequence of cycles; a
failed fetch (empty batch) leaves it unchanged. -/
theorem cursor_monotone_spec :
    (∀ cursor batch m, listMax (batch.map eventId) = some m →
      cursor_after cursor batch = max cursor m)
    ∧ (∀ cursor batch, cursor ≤ cursor_after cursor batch)
    ∧ (∀ cursor fetches, cursor ≤ run_cycles cursor fetches)
    ∧ (∀ cursor, cursor_after cursor (fetched_batch none) = cursor) := by
  refine ⟨?_, le_cursor_after, ?_, fun cursor => rfl⟩
  · intro cursor batch m h
    unfold cursor_after
    rw [h, max_def]
    dsimp only
    split <;> split <;> omega
  · intro cursor fetches
    induction fetches generalizing cursor with
    | nil => exact le_refl _
    | cons f fs ih =>
      have h1 := le_cursor_after cursor (fetched_batch f)
      have h2 := ih (cursor_after cursor (fetched_batch f))
      calc cursor ≤ cursor_after cursor (fetched_batch f) := h1
        _ ≤ run_cycles (cursor_after cursor (fetched_batch f)) fs := h2
        _ = run_cycles cursor (f :: fs) := rfl

/-- Concrete instantiation: one fetched event with id 5 against cursor 3. -/
theorem cursor_monotone_spec_witness :
    listMax (([⟨some 5, none, none, none, none, none, none, none⟩] :
        List Achievement).map eventId) = some 5
    ∧ cursor_after 3 [⟨some 5, none, none, none, none, none, none, none⟩] = max 3 5 :=
  ⟨rfl, cursor_monotone_spec.1 3
    [⟨some 5, none, none, none, none, none, none, none⟩] 5 rfl⟩

/-- C4 as stated is false of the program: poll_interval_minutes = 29 with
max_posts_per_hour = 60 passes the startup validation, yet the float
computation int(60 / (60 / 29)) sees 60 / (60 / 29) evaluate to
28.999999999999996 in binary64, so the cap is 28, while the claimed
formula max(1, floor(60 / (60 / 29))) gives 29. -/
theorem interval_cap_formula_fails :
    10 ≤ 29 ∧ 1 ≤ 60 ∧ 60 ≤ 60
    ∧ max_posts_per_interval 29 60 = 28
    ∧ ((max 1 (60 * 29 / 60) : ℕ) : ℤ) = 29 := by
  decide

set_option maxRecDepth 16384 in
/-- C4 amended: when poll_interval_minutes divides 60 both float divisions
are exact and the cap equals the spec formula
max(1, floor(max_posts_per_hour / (60 / poll_interval_minutes))), written
here as max(1, floor(mph * pim / 60)); the two quoted instances evaluate
to 5 and 1.  For other valid configurations float rounding can lower the
cap below the formula. -/
theorem max_posts_per_interval_spec :
    (∀ pim mph : ℕ, 10 ≤ pim → pim ∣ 60 → 1 ≤ mph → mph ≤ 60 →
      max_posts_per_interval pim mph = ((max 1 (mph * pim / 60) : ℕ) : ℤ))
    ∧ max_posts_per_interval 10 30 = 5
    ∧ max_posts_per_interval 60 1 = 1 := by
  have H : ∀ p, p < 61 → ∀ m, m < 61 → 10 ≤ p → p ∣ 60 → 1 ≤ m →
      max_posts_per_interval p m = ((max 1 (m * p / 60) : ℕ) : ℤ) := by decide
  refine ⟨?_, ?_, ?_⟩
  · intro pim mph h1 hd h2 h3
    have hle : pim ≤ 60 := Nat.le_of_dvd (by norm_num) hd
    exact H pim (by omega) mph (by omega) h1 hd h2
  · exact H 10 (by norm_num) 30 (by norm_num) (by norm_num) (by norm_num) (by norm_num)
  · exact H 60 (by norm_num) 1 (by norm_num) (by norm_num) (by norm_num) (by norm_num)

/-- Concrete instantiation of the cap formula at pim = 12, mph = 7. -/
theorem max_posts_per_interval_spec_witness :
    max_posts_per_interval 12 7 = ((max 1 (7 * 12 / 60) : ℕ) : ℤ) :=
  max_posts_per_interval_spec.1 12 7 (by decide) (by decide) (by decide) (by decide)

/-- C10: an absent rarity percentage is formatted as "0.00" by the message
formatter (default 0), while the publish ranking key defaults to 100. -/
theorem percentage_default_spec :
    ∀ a : Achievement, a.rarity_percentage = none →
      percentage_string a = "0.00" ∧ sortKey a = 100 := by
  intro a h
  refine ⟨?_, ?_⟩
  · unfold percentage_string
    rw [h]
    show format2f 0 = "0.00"
    unfold format2f
    norm_num
    rfl
  · unfold sortKey
    rw [h]
    rfl

/-- Concrete instantiation: an achievement carrying no percentage field. -/
theorem percentage_default_spec_witness :
    percentage_string ⟨none, none, none, none, none, none, none, none⟩ = "0.00"
    ∧ sortKey ⟨none, none, none, none, none, none, none, none⟩ = 100 :=
  percentage_default_spec ⟨none, none, none, none, none, none, none, none⟩ rfl

/-- Helper: a publish attempt whose send fails reports false. -/
theorem post_send_fail (m : ℕ) (now : ℤ) (s : RateState) :
    (post_to_bluesky m now false s).1 = false := by
  unfold post_to_bluesky
  dsimp only
  split <;> simp

/-- Helper: one attempt keeps the hourly counter within the cap. -/
theorem post_posts_le (m : ℕ) (now : ℤ) (ok : Bool) (s : RateState)
    (h : s.posts_this_hour ≤ m) :
    (post_to_bluesky m now ok s).2.posts_this_hour ≤ m := by
  unfold post_to_bluesky
  dsimp only
  by_cases hw : s.hour_reset_time ≤ now <;>
    simp only [hw, if_true, if_false, ite_true, ite_false] <;>
    split <;> (try split) <;> simp <;> omega

/-- Helper: any run of attempts from a within-cap state stays within cap. -/
theorem run_posts_le (m : ℕ) (attempts : List (ℤ × Bool)) (s : RateState)
    (h : s.posts_this_hour ≤ m) :
    (run_posts m attempts s).posts_this_hour ≤ m := by
  induction attempts generalizing s with
  | nil => exact h
  | cons a rest ih =>
    have step := post_posts_le m a.1 a.2 s h
    have : run_posts m (a :: rest) s
        = run_posts m rest (post_to_bluesky m a.1 a.2 s).2 := rfl
    rw [this]
    exact ih _ step

/-- C3: with a cap of 2, three otherwise-successful attempts in one window
return true, true, false; an attempt at or after the reset time resets the
counter to 0, re-arms the window one hour after that attempt's clock time,
and returns true (counter 1 after its own increment). -/
theorem rate_window_spec (w t1 t2 t3 t4 : ℤ)
    (h1 : t1 < w) (h2 : t2 < w) (h3 : t3 < w) (h4 : w ≤ t4) :
    post_to_bluesky 2 t1 true ⟨0, w⟩ = (true, ⟨1, w⟩)
    ∧ post_to_bluesky 2 t2 true ⟨1, w⟩ = (true, ⟨2, w⟩)
    ∧ post_to_bluesky 2 t3 true ⟨2, w⟩ = (false, ⟨2, w⟩)
    ∧ post_to_bluesky 2 t4 true ⟨2, w⟩ = (true, ⟨1, t4 + 3600⟩)
    ∧ post_to_bluesky 2 t4 false ⟨2, w⟩ = (false, ⟨0, t4 + 3600⟩) := by
  refine ⟨?_, ?_, ?_, ?_, ?_⟩ <;>
    unfold post_to_bluesky <;>
    simp only [not_le.mpr h1, not_le.mpr h2, not_le.mpr h3, h4,
      if_true, if_false, ite_true, ite_false] <;>
    norm_num

/-- Concrete instantiation: window ending at 0, attempts at -3, -2, -1, 0. -/
theorem rate_window_spec_witness :
    post_to_bluesky 2 (-3) true ⟨0, 0⟩ = (true, ⟨1, 0⟩)
    ∧ post_to_bluesky 2 (-2) true ⟨1, 0⟩ = (true, ⟨2, 0⟩)
    ∧ post_to_bluesky 2 (-1) true ⟨2, 0⟩ = (false, ⟨2, 0⟩)
    ∧ post_to_bluesky 2 0 true ⟨2, 0⟩ = (true, ⟨1, 0 + 3600⟩)
    ∧ post_to_bluesky 2 0 false ⟨2, 0⟩ = (false, ⟨0, 0 + 3600⟩) :=
  rate_window_spec 0 (-3) (-2) (-1) 0 (by decide) (by decide) (by decide) (by decide)

/-- C9: the hourly counter never exceeds the cap over any run started at a
fresh state; an attempt in-window with a full counter is refused with no
state change (no send happens); only a successful send can yield true; a
failed send returns false and never increases the counter. -/
theorem hourly_cap_invariant_spec :
    (∀ m w attempts, (run_posts m attempts ⟨0, w⟩).posts_this_hour ≤ m)
    ∧ (∀ m now s, now < s.hour_reset_time → m ≤ s.posts_this_hour →
        post_to_bluesky m now true s = (false, s))
    ∧ (∀ m now ok s, (post_to_bluesky m now ok s).1 = true → ok = true)
    ∧ (∀ m now s, (post_to_bluesky m now false s).1 = false
        ∧ (post_to_bluesky m now false s).2.posts_this_hour ≤ s.posts_this_hour) := by
  refine ⟨?_, ?_, ?_, ?_⟩
  · intro m w attempts
    exact run_posts_le m attempts ⟨0, w⟩ (Nat.zero_le m)
  · intro m now s hw hc
    unfold post_to_bluesky
    simp only [not_le.mpr hw, ite_false, hc, ite_true, if_pos hc]
  · intro m now ok s h
    cases ok with
    | true => rfl
    | false => rw [post_send_fail] at h; exact absurd h (by simp)
  · intro m now s
    refine ⟨post_send_fail m now s, ?_⟩
    unfold post_to_bluesky
    dsimp only
    by_cases hw : s.hour_reset_time ≤ now <;>
      simp only [hw, ite_true, ite_false] <;>
      split <;> simp

/-- Concrete instantiation: a full counter inside the window is refused. -/
theorem hourly_cap_invariant_spec_witness :
    post_to_bluesky 3 0 true ⟨3, 10⟩ = (false, ⟨3, 10⟩) :=
  hourly_cap_invariant_spec.2.1 3 0 ⟨3, 10⟩ (by decide) (by decide)

/-- C2 as stated is false: with ample rate budget, a caught publisher
failure on the first event makes post_to_bluesky return false, and the
cycle loop then breaks — the second event of the batch is never attempted,
so the failure is not isolated per event. -/
theorem publisher_failure_aborts_batch :
    posting_loop 30 0
        [(⟨some 1, none, none, none, none, none, none, none⟩, false),
         (⟨some 2, none, none, none, none, none, none, none⟩, true)] ⟨0, 3600⟩
      = ([⟨some 1, none, none, none, none, none, none, none⟩], 0, ⟨0, 3600⟩)
    ∧ (⟨some 2, none, none, none, none, none, none, none⟩ : Achievement) ∉
        (posting_loop 30 0
          [(⟨some 1, none, none, none, none, none, none, none⟩, false),
           (⟨some 2, none, none, none, none, none, none, none⟩, true)] ⟨0, 3600⟩).1 := by
  decide

/-- C2 amended: a publisher failure is caught and reported as a false
return — never an exception — but the loop stops at the first false result:
when the first event's send fails, only that event is attempted in the
cycle and the remaining events are skipped until the next cycle. -/
theorem publisher_failure_caught_spec (m : ℕ) (now : ℤ) (s : RateState)
    (a : Achievement) (rest : List (Achievement × Bool)) :
    (post_to_bluesky m now false s).1 = false
    ∧ posting_loop m now ((a, false) :: rest) s
        = ([a], 0, (post_to_bluesky m now false s).2) := by
  refine ⟨post_send_fail m now s, ?_⟩
  unfold posting_loop
  simp [post_send_fail]

/-- Helper: the publish comparison is transitive. -/
theorem publishLe_trans : ∀ a b c : Achievement,
    publishLe a b → publishLe b c → publishLe a c := by
  intro a b c hab hbc
  simp only [publishLe, decide_eq_true_eq] at hab hbc ⊢
  exact le_trans hab hbc

/-- Helper: the publish comparison is total. -/
theorem publishLe_total : ∀ a b : Achievement, publishLe a b || publishLe b a := by
  intro a b
  simp only [publishLe, Bool.or_eq_true, decide_eq_true_eq]
  exact le_total _ _

/-- C6: the publish ranking has non-decreasing rarity percentage (missing
treated as 100), is a permutation of its input, and is stable: for every
key value the subsequence of events carrying that key is exactly the same,
in the same order, before and after ranking. -/
theorem rank_for_publish_spec :
    ∀ l : List Achievement,
      (rank_for_publish l).Pairwise (fun x y => sortKey x ≤ sortKey y)
      ∧ (rank_for_publish l).Perm l
      ∧ ∀ k : ℚ, (rank_for_publish l).filter (fun e => decide (sortKey e = k))
          = l.filter (fun e => decide (sortKey e = k)) := by
  intro l
  refine ⟨?_, List.mergeSort_perm l publishLe, ?_⟩
  · have h := List.sorted_mergeSort publishLe_trans publishLe_total l
    exact h.imp (fun hxy => by simpa [publishLe] using hxy)
  · intro k
    set p : Achievement → Bool := fun e => decide (sortKey e = k) with hp
    have hkeys : ∀ x ∈ l.filter p, sortKey x = k := by
      intro x hx
      have hpx := (List.mem_filter.mp hx).2
      simpa [hp] using hpx
    have hpw : (l.filter p).Pairwise (fun x y => publishLe x y = true) := by
      apply List.pairwise_of_forall_mem_list
      intro x hx y hy
      simp [publishLe, hkeys x hx, hkeys y hy]
    have hsub : List.Sublist (l.filter p) (rank_for_publish l) :=
      List.sublist_mergeSort publishLe_trans publishLe_total hpw (List.filter_sublist l)
    have hsub2 : List.Sublist ((l.filter p).filter p) ((rank_for_publish l).filter p) :=
      hsub.filter p
    have hff : (l.filter p).filter p = l.filter p :=
      List.filter_eq_self.mpr (fun x hx => (List.mem_filter.mp hx).2)
    rw [hff] at hsub2
    have hlen : ((rank_for_publish l).filter p).length = (l.filter p).length :=
      ((List.mergeSort_perm l publishLe).filter p).length_eq
    exact (hsub2.eq_of_length hlen.symm).symm

/-- C7: a page that loads but carries no Open Graph tags, no title element
and no description meta tag still yields a card, with the default title and
description, both within the 300-character truncation bound. -/
theorem metadata_default_spec (p : PageTags)
    (h1 : p.og_title = none) (h2 : p.og_description = none)
    (h3 : p.og_image = none) (h4 : p.title_tag = none) (h5 : p.desc_tag = none) :
    fetch_url_metadata (some p)
      = some ⟨"Achievement Unlocked", "View this achievement on Feedmaster", false⟩
    ∧ (extract_metadata p).title.length ≤ 300
    ∧ (extract_metadata p).description.length ≤ 300 := by
  obtain ⟨f1, f2, f3, f4, f5⟩ := p
  dsimp only at h1 h2 h3 h4 h5
  subst h1 h2 h3 h4 h5
  refine ⟨by decide, by decide, by decide⟩

/-- Concrete instantiation: the completely bare page. -/
theorem metadata_default_spec_witness :
    fetch_url_metadata (some ⟨none, none, none, none, none⟩)
      = some ⟨"Achievement Unlocked", "View this achievement on Feedmaster", false⟩
    ∧ (extract_metadata ⟨none, none, none, none, none⟩).title.length ≤ 300
    ∧ (extract_metadata ⟨none, none, none, none, none⟩).description.length ≤ 300 :=
  metadata_default_spec ⟨none, none, none, none, none⟩ rfl rfl rfl rfl rfl

/-- C8: identical avatar url, achievement name and user name give the same
cache key, hence the same cache path; re-rendering after a first render is
a cache hit that returns the existing path with no drawing work; and
changing the achievement name changes the hashed key content. -/
theorem card_cache_spec (a b : Achievement) (cache : List String)
    (h : card_inputs a = card_inputs b) :
    card_cache_path a = card_cache_path b
    ∧ (generate_achievement_card (generate_achievement_card cache a).2.2 b).1
        = (generate_achievement_card cache a).1
    ∧ (generate_achievement_card (generate_achievement_card cache a).2.2 b).2.1 = false
    ∧ ∀ u n n2 m, n ≠ n2 → cache_key_content u n m ≠ cache_key_content u n2 m := by
  have hpath : card_cache_path a = card_cache_path b := by
    unfold card_cache_path
    rw [h]
  refine ⟨hpath, ?_, ?_, ?_⟩
  · unfold generate_achievement_card
    rw [← hpath]
    by_cases hm : card_cache_path a ∈ cache <;> simp [hm]
  · unfold generate_achievement_card
    rw [← hpath]
    by_cases hm : card_cache_path a ∈ cache <;> simp [hm]
  · intro u n n2 m hne heq
    apply hne
    have hdata := congrArg String.data heq
    simp only [cache_key_content, String.data_append, List.append_assoc] at hdata
    have h1 := List.append_cancel_left hdata
    have h2 := List.append_cancel_left h1
    exact String.ext (List.append_cancel_right h2)

/-- Concrete instantiation: rendering the same bare event twice from an
empty cache directory. -/
theorem card_cache_spec_witness :
    card_cache_path ⟨none, none, none, none, none, none, none, none⟩
      = card_cache_path ⟨none, none, none, none, none, none, none, none⟩
    ∧ (generate_achievement_card
        (generate_achievement_card [] ⟨none, none, none, none, none, none, none, none⟩).2.2
        ⟨none, none, none, none, none, none, none, none⟩).1
      = (generate_achievement_card [] ⟨none, none, none, none, none, none, none, none⟩).1
    ∧ (generate_achievement_card
        (generate_achievement_card [] ⟨none, none, none, none, none, none, none, none⟩).2.2
        ⟨none, none, none, none, none, none, none, none⟩).2.1 = false
    ∧ ∀ u n n2 m, n ≠ n2 → cache_key_content u n m ≠ cache_key_content u n2 m :=
  card_cache_spec ⟨none, none, none, none, none, none, none, none⟩
    ⟨none, none, none, none, none, none, none, none⟩ [] rfl

end FeedmasterBot
